import Mathlib

/-!
Verification of the worktree_plus registry and worktree orchestration core.

The development shallowly embeds the Go source:
- config.go: the folder registry (FolderInfo, Config) and its query/update
  operations, plus the activation gate of main.go (exact-match short-circuit,
  branch-conflict check, touchFolder commit).
- worktree.go: worktree path arithmetic and the create/remove orchestration.
  Filesystem probes and git command outcomes are oracle parameters (the git
  binary is an external collaborator); the embedding records which git
  command the code would issue.
- git.go: the ignored-item enumeration and the gitignore append logic,
  with Go string helpers re-implemented structurally over character lists so
  that concrete runs reduce inside the kernel.

Time stamps (time.Now) are modelled as an explicit Nat parameter. Go maps are
modelled as association lists; map reads are first-match lookups and map
writes update the entry in place.
-/

namespace WorktreePlus

/-- FolderInfo from config.go: the per-alias record with the branch last
bound to the alias, the last-used timestamp and the active flag. -/
structure FolderInfo where
  branch : String
  lastUsed : Nat
  isActive : Bool
deriving DecidableEq, Repr

/-- Config from config.go: folder history, a mapping from alias to
FolderInfo (the Go map is modelled as an association list). -/
structure Config where
  folders : List (String × FolderInfo)
deriving DecidableEq, Repr

/-- Map read on the folders mapping: first entry with the given key. -/
def Config.find? (c : Config) (name : String) : Option FolderInfo :=
  (c.folders.find? (fun p => p.1 == name)).map Prod.snd

/-- findFolderByBranch from config.go: looks up a folder name by branch
name among active folders. -/
def findFolderByBranch (c : Config) (branchName : String) : Option String :=
  (c.folders.find? (fun p => p.2.isActive && p.2.branch == branchName)).map Prod.fst

/-- touchFolder from config.go: updates the last used time for a folder,
marks it active and overwrites its branch; creates the record if the alias
was never seen. -/
def touchFolder (c : Config) (folderName branchName : String) (now : Nat) : Config :=
  match c.find? folderName with
  | some _ =>
      ⟨c.folders.map (fun p =>
        if p.1 == folderName then (p.1, ⟨branchName, now, true⟩) else p)⟩
  | none => ⟨c.folders ++ [(folderName, ⟨branchName, now, true⟩)]⟩

/-- deactivateFolder from config.go: marks a folder as inactive and
refreshes its last-used time, but keeps it in history; a missing alias is
left alone. -/
def deactivateFolder (c : Config) (folderName : String) (now : Nat) : Config :=
  match c.find? folderName with
  | some _ =>
      ⟨c.folders.map (fun p =>
        if p.1 == folderName then (p.1, ⟨p.2.branch, now, false⟩) else p)⟩
  | none => c

/-- checkBranchConflict from config.go: returns the name of a folder that is
active on the requested branch under a different alias, or the empty string
when there is none. -/
def checkBranchConflict (c : Config) (folderName branchName : String) : String :=
  match c.folders.find? (fun p =>
      p.2.isActive && p.2.branch == branchName && p.1 != folderName) with
  | some p => p.1
  | none => ""

/-- isExactMatch from config.go: whether the folder plus branch pair exactly
matches an active session. -/
def isExactMatch (c : Config) (folderName branchName : String) : Bool :=
  match c.find? folderName with
  | some info => info.isActive && info.branch == branchName
  | none => false

/-- Outcome of the activation gate in main.go: an exact match exits as a
reported no-op, a branch conflict exits with an error naming the conflicting
folder, and only otherwise is the registry committed and per-repository work
started. -/
inductive ActivationResult where
  | noop
  | conflict (folder : String)
  | activated
deriving DecidableEq, Repr

/-- Activation gate of main.go (create path, lines 103 to 124): the
exact-match short-circuit, then the branch-conflict check, then the
touchFolder commit. The returned Config is the registry state after the
call; the no-op and conflict outcomes return before any registry or
filesystem mutation, so they carry the input registry unchanged. -/
def resolveActivation (c : Config) (folderName branchName : String) (now : Nat) :
    ActivationResult × Config :=
  if isExactMatch c folderName branchName then
    (ActivationResult.noop, c)
  else if checkBranchConflict c folderName branchName != "" then
    (ActivationResult.conflict (checkBranchConflict c folderName branchName), c)
  else
    (ActivationResult.activated, touchFolder c folderName branchName now)

/-- Registry document as found on disk, abstracting the outcomes of
os.ReadFile and json.Unmarshal in loadConfig: the file may be missing,
unreadable for another reason, present but unparsable, or parsed with an
optional folders mapping (absent or null mapping field gives none). -/
inductive ConfigDocument where
  | missing
  | unreadable
  | malformed
  | parsed (folders : Option (List (String × FolderInfo)))
deriving DecidableEq

/-- Result of loadConfig: a registry, a read error, or a parse error. -/
inductive LoadResult where
  | ok (config : Config)
  | ioError
  | parseError
deriving DecidableEq

/-- loadConfig from config.go: a missing file yields the empty registry, a
read failure is returned to the caller, a parse failure is returned as an
explicit error, and a document with a missing mapping field is normalized to
the empty mapping. -/
def loadConfig : ConfigDocument → LoadResult
  | ConfigDocument.missing => LoadResult.ok ⟨[]⟩
  | ConfigDocument.unreadable => LoadResult.ioError
  | ConfigDocument.malformed => LoadResult.parseError
  | ConfigDocument.parsed none => LoadResult.ok ⟨[]⟩
  | ConfigDocument.parsed (some folders) => LoadResult.ok ⟨folders⟩

/-- Paths are modelled as their component lists; filepath.Dir drops the last
component. -/
def pathDir (p : List String) : List String := p.dropLast

/-- filepath.Base on the component model: the last component. -/
def pathBase (p : List String) : String := (p.getLast?).getD "."

/-- getWorktreePath from worktree.go: Join of the grandparent directory of
the repository directory, the folder name, and the repository directory
name. -/
def getWorktreePath (dir : List String) (folderName : String) : List String :=
  pathDir (pathDir dir) ++ [folderName, pathBase dir]

/-- Modelled from the spec: the location the spec states for the
synchronized tree, the sibling of the invocation root's parent directory
under the folder alias and the repository directory name. Stated for
refinement against getWorktreePath. -/
def specWorktreePath (root : List String) (folderName dirName : String) : List String :=
  pathDir root ++ [folderName, dirName]

/-- Branch state of one repository, the oracle for the git collaborator:
which branch names exist locally and which exist on the default remote. -/
structure GitRepo where
  localBranches : List String
  remoteBranches : List String
deriving DecidableEq

/-- branchExists from git.go: whether the branch exists as a local branch. -/
def branchExists (repo : GitRepo) (branchName : String) : Bool :=
  repo.localBranches.contains branchName

/-- remoteBranchExists from git.go: whether the branch exists on origin. -/
def remoteBranchExists (repo : GitRepo) (branchName : String) : Bool :=
  repo.remoteBranches.contains branchName

/-- Git worktree command issued by createWorktree: attach to an existing
local branch, create a local branch tracking the remote one, or create a
brand-new branch. -/
inductive WorktreeCmd where
  | attachLocal (path : List String) (branch : String)
  | trackRemote (path : List String) (branch : String)
  | createNew (path : List String) (branch : String)
deriving DecidableEq, Repr

/-- Observable outcome of one createWorktree call: whether the target tree
exists afterwards, whether the call returned without error, and which git
worktree command (if any) was issued. -/
structure CreateResult where
  treeExists : Bool
  ok : Bool
  gitCmd : Option WorktreeCmd
deriving DecidableEq, Repr

/-- createWorktree from worktree.go. The os.Stat probe of the target path
and the success of the issued git command are oracle inputs. An existing
target returns success immediately with no git command; otherwise the
command is chosen by provenance (local branch, then remote branch, then new
branch) and on git failure the tree is not created and an error is
returned. The symlink mirroring warning does not affect the result. -/
def createWorktree (repo : GitRepo) (targetExists gitOk : Bool) (dir : List String)
    (folderName branchName : String) : CreateResult :=
  let worktreePath := getWorktreePath dir folderName
  if targetExists then ⟨true, true, none⟩
  else
    let cmd : WorktreeCmd :=
      if branchExists repo branchName then WorktreeCmd.attachLocal worktreePath branchName
      else if remoteBranchExists repo branchName then
        WorktreeCmd.trackRemote worktreePath branchName
      else WorktreeCmd.createNew worktreePath branchName
    if gitOk then ⟨true, true, some cmd⟩
    else ⟨false, false, some cmd⟩

/-- Git worktree remove variant: plain or forced. -/
inductive RemoveCmd where
  | plain
  | force
deriving DecidableEq, Repr

/-- removeWorktree from worktree.go: the list of remove commands attempted
in order, and whether an error is returned for this repository. The
existence probe and the two command outcomes are oracle inputs. A missing
target returns success with no command; a plain-remove failure is retried
once with the forced variant; only a forced failure is an error. -/
def removeWorktree (targetExists plainOk forceOk : Bool) : List RemoveCmd × Bool :=
  if !targetExists then ([], false)
  else if plainOk then ([RemoveCmd.plain], false)
  else if forceOk then ([RemoveCmd.plain, RemoveCmd.force], false)
  else ([RemoveCmd.plain, RemoveCmd.force], true)

/-- Split a character list at every occurrence of the separator, keeping
empty pieces, as strings.Split does. -/
def splitOnChar (sep : Char) : List Char → List (List Char)
  | [] => [[]]
  | c :: cs =>
    let rest := splitOnChar sep cs
    if c == sep then [] :: rest
    else
      match rest with
      | [] => [[c]]
      | r :: rs => (c :: r) :: rs

/-- Whitespace predicate of strings.TrimSpace, on the ASCII range. -/
def charIsSpace (c : Char) : Bool :=
  c == ' ' || c == '\t' || c == '\n' || c == '\x0b' || c == '\x0c' || c == '\r'

/-- strings.TrimSpace re-implemented structurally over the character list. -/
def goTrim (s : String) : String :=
  String.mk (((s.data.dropWhile charIsSpace).reverse.dropWhile charIsSpace).reverse)

/-- Whether the first list is an initial segment of the second. -/
def listLeads : List Char → List Char → Bool
  | [], _ => true
  | _ :: _, [] => false
  | p :: ps, c :: cs => p == c && listLeads ps cs

/-- strings.Contains re-implemented structurally: whether the pattern occurs
as a contiguous segment of the second list. -/
def listOccurs (pat : List Char) : List Char → Bool
  | [] => listLeads pat []
  | c :: cs => listLeads pat (c :: cs) || listOccurs pat cs

/-- strings.ReplaceAll with a one-character pattern: turn every backslash
into a forward slash. -/
def replaceBackslashes (l : List Char) : List Char :=
  l.map (fun c => if c == '\\' then '/' else c)

/-- strings.TrimSuffix with the slash suffix: drop one trailing slash. -/
def dropTrailingSlash (s : String) : String :=
  if s.data.getLast? == some '/' then String.mk s.data.dropLast else s

/-- strings.HasPrefix with the hash-mark pattern used for comment lines. -/
def lineIsComment (s : String) : Bool :=
  listLeads ['#'] s.data

/-- Header comment line that addToGitExclude tags on first use. -/
def headerComment : String := "# worktree_plus symlinks"

/-- getIgnoredItems from git.go, applied to the output text of the git
ls-files listing: trim the whole output, split into lines, trim each line,
skip empty lines, and drop one trailing slash from directory entries. -/
def getIgnoredItems (output : String) : List String :=
  ((splitOnChar '\n' (goTrim output).data).map (fun l => goTrim (String.mk l))).filterMap
    (fun line => if line = "" then none else some (dropTrailingSlash line))

/-- addToGitExclude from git.go, on the content of the worktree gitignore
file: collect the trimmed non-empty non-comment lines already present,
root-anchor each linked item with a leading slash (after turning
backslashes into slashes), keep only patterns not already present, and
append them, preceded by the header comment when the content does not yet
contain it. When nothing new is to be added the file is left untouched.
The assume-unchanged git command carries no content change. -/
def addToGitExclude (existingContent : String) (items : List String) : String :=
  let existingPatterns : List String :=
    ((splitOnChar '\n' existingContent.data).map (fun l => goTrim (String.mk l))).filter
      (fun line => line != "" && !(lineIsComment line))
  let newItems : List String :=
    (items.map (fun item => "/" ++ String.mk (replaceBackslashes item.data))).filter
      (fun pat => !(existingPatterns.contains pat))
  if newItems.isEmpty then existingContent
  else
    let afterHeader : String :=
      if listOccurs headerComment.data existingContent.data then existingContent
      else existingContent ++ "\n" ++ headerComment ++ "\n"
    newItems.foldl (fun acc item => acc ++ item ++ "\n") afterHeader

/-- Number of lines of the content that are exactly the given line. -/
def countLines (content : String) (line : String) : Nat :=
  ((splitOnChar '\n' content.data).map (fun l => String.mk l)).count line

/-- Filesystem state of one new worktree, as seen by the ignored-item
mirror: the content of its gitignore file and the paths already present
inside the tree. -/
structure WorktreeFs where
  gitignore : String
  present : List String
deriving DecidableEq

/-- createIgnoredSymlinks from main flow (worktree creation): link every
ignored item whose source exists and whose target is not already present,
then append exactly the linked items to the gitignore file. When nothing
was linked the gitignore step is skipped. Link creation is assumed to
succeed; sources are the ignored paths that exist in the repository. -/
def createIgnoredSymlinks (sourcePresent : List String) (items : List String)
    (fs : WorktreeFs) : WorktreeFs :=
  let linkedItems := items.filter
    (fun item => sourcePresent.contains item && !(fs.present.contains item))
  if linkedItems.isEmpty then ⟨fs.gitignore, fs.present⟩
  else ⟨addToGitExclude fs.gitignore linkedItems, fs.present ++ linkedItems⟩

/-- Scenario of the spec's mirror test: a repository whose ignore rules
exclude the directory build and the file out/tmp.bin, both present on disk.
The git ls-files listing therefore prints them, the directory with a
trailing slash. -/
def mirrorItems : List String := getIgnoredItems "build/\nout/tmp.bin\n"

/-- Mirror state after creating the tree and running the ignored-item
mirror once. The fresh worktree checks out the repository gitignore file
(which is how the two paths are ignored) and contains neither ignored
path. -/
def mirrorOnce : WorktreeFs :=
  createIgnoredSymlinks ["build", "out/tmp.bin"] mirrorItems ⟨"build/\nout/tmp.bin\n", []⟩

/-- Mirror state after running the ignored-item mirror a second time. -/
def mirrorTwice : WorktreeFs :=
  createIgnoredSymlinks ["build", "out/tmp.bin"] mirrorItems mirrorOnce

end WorktreePlus

namespace WorktreePlus

/-- Updating the value at one key preserves the first component of every
entry. -/
theorem upd_fst (f : String) (g : String × FolderInfo → FolderInfo)
    (p : String × FolderInfo) :
    (if p.1 == f then (p.1, g p) else p).1 = p.1 := by
  split <;> rfl

/-- Lookup after a keyed in-place value update is the update of the lookup. -/
theorem find?_map_keyed (l : List (String × FolderInfo)) (f key : String)
    (g : String × FolderInfo → FolderInfo) :
    (l.map (fun p => if p.1 == f then (p.1, g p) else p)).find? (fun p => p.1 == key)
      = (l.find? (fun p => p.1 == key)).map
          (fun p => if p.1 == f then (p.1, g p) else p) := by
  induction l with
  | nil => rfl
  | cons hd tl ih =>
    simp only [List.map_cons, List.find?_cons, upd_fst]
    cases h : (hd.1 == key) with
    | false => simpa [h] using ih
    | true => simp [h]

/-- Specialization of the keyed-update lookup lemma to a constant new
value, the shape used by touchFolder. -/
theorem find?_map_const (l : List (String × FolderInfo)) (f key : String)
    (v : FolderInfo) :
    (l.map (fun p => if p.1 == f then (p.1, v) else p)).find? (fun p => p.1 == key)
      = (l.find? (fun p => p.1 == key)).map
          (fun p => if p.1 == f then (p.1, v) else p) :=
  find?_map_keyed l f key (fun _ => v)

/-- Specialization of the keyed-update lookup lemma to the deactivation
update, which keeps the branch of the entry. -/
theorem find?_map_deact (l : List (String × FolderInfo)) (f key : String) (n : Nat) :
    (l.map (fun p => if p.1 == f then (p.1, ⟨p.2.branch, n, false⟩) else p)).find?
        (fun p => p.1 == key)
      = (l.find? (fun p => p.1 == key)).map
          (fun p => if p.1 == f then (p.1, ⟨p.2.branch, n, false⟩) else p) :=
  find?_map_keyed l f key (fun p => ⟨p.2.branch, n, false⟩)

/-- Mapping a function that preserves first components preserves the key
list. -/
theorem keys_map_of_fst (l : List (String × FolderInfo))
    (φ : String × FolderInfo → String × FolderInfo)
    (hφ : ∀ p, (φ p).1 = p.1) : (l.map φ).map Prod.fst = l.map Prod.fst := by
  induction l with
  | nil => rfl
  | cons hd tl ih => simp [hφ, ih]

/-- touchFolder always leaves the touched alias bound to the new branch,
the new timestamp, and the active flag. -/
theorem find?_touchFolder (c : Config) (f b : String) (n : Nat) :
    (touchFolder c f b n).find? f = some ⟨b, n, true⟩ := by
  unfold touchFolder
  cases h : c.find? f with
  | some info =>
    unfold Config.find? at h ⊢
    cases hl : c.folders.find? (fun p => p.1 == f) with
    | none => rw [hl] at h; simp at h
    | some q =>
      have hq : (q.1 == f) = true := by simpa using List.find?_some hl
      simp only [find?_map_const, hl, Option.map_some']
      simp [hq]
  | none =>
    unfold Config.find? at h ⊢
    have hl : c.folders.find? (fun p => p.1 == f) = none := by
      cases hl : c.folders.find? (fun p => p.1 == f) with
      | none => rfl
      | some q => rw [hl] at h; simp at h
    rw [List.find?_append, hl]
    simp

/-- touchFolder of an alias already present preserves the key list. -/
theorem keys_touchFolder (c : Config) (f b : String) (n : Nat) (info : FolderInfo)
    (h : c.find? f = some info) :
    (touchFolder c f b n).folders.map Prod.fst = c.folders.map Prod.fst := by
  unfold touchFolder
  rw [h]
  exact keys_map_of_fst _ _ (fun p => by cases hp : (p.1 == f) <;> simp [hp])

/-- deactivateFolder preserves the key list. -/
theorem keys_deactivateFolder (c : Config) (f : String) (n : Nat) :
    (deactivateFolder c f n).folders.map Prod.fst = c.folders.map Prod.fst := by
  unfold deactivateFolder
  cases h : c.find? f with
  | some info =>
    exact keys_map_of_fst _ _ (fun p => by cases hp : (p.1 == f) <;> simp [hp])
  | none => rfl

/-- deactivateFolder of a present alias keeps the record with its branch,
refreshes the timestamp and clears the active flag. -/
theorem find?_deactivateFolder (c : Config) (f : String) (info : FolderInfo) (n : Nat)
    (h : c.find? f = some info) :
    (deactivateFolder c f n).find? f = some ⟨info.branch, n, false⟩ := by
  unfold deactivateFolder
  rw [h]
  unfold Config.find? at h ⊢
  cases hl : c.folders.find? (fun p => p.1 == f) with
  | none => rw [hl] at h; simp at h
  | some q =>
    have hq : (q.1 == f) = true := by simpa using List.find?_some hl
    have hq2 : q.2 = info := by rw [hl] at h; simpa using h
    simp only [find?_map_deact, hl, Option.map_some']
    simp [hq, hq2]

end WorktreePlus

namespace WorktreePlus

/-- C1 (counterexample): the claim quantifies over every registry state, but
two states satisfying its hypotheses refute it. First, when the requesting
alias a2 is itself also active on branch b, the exact-match short-circuit
fires first and the request is reported as a no-op success instead of being
refused with an error naming a1. Second, when the conflicting alias a1 is
the empty string, checkBranchConflict returns the empty string, which the
caller reads as no conflict, and activation proceeds and mutates the
registry. -/
theorem activation_conflict_naming_counterexample :
    ("a1" ≠ "a2"
      ∧ (Config.mk [("a1", ⟨"b", 0, true⟩), ("a2", ⟨"b", 0, true⟩)]).find? "a1"
          = some ⟨"b", 0, true⟩
      ∧ resolveActivation ⟨[("a1", ⟨"b", 0, true⟩), ("a2", ⟨"b", 0, true⟩)]⟩ "a2" "b" 5
          = (ActivationResult.noop, ⟨[("a1", ⟨"b", 0, true⟩), ("a2", ⟨"b", 0, true⟩)]⟩))
  ∧ ("" ≠ "a2"
      ∧ (Config.mk [("", ⟨"b", 0, true⟩)]).find? "" = some ⟨"b", 0, true⟩
      ∧ resolveActivation ⟨[("", ⟨"b", 0, true⟩)]⟩ "a2" "b" 5
          = (ActivationResult.activated,
              ⟨[("", ⟨"b", 0, true⟩), ("a2", ⟨"b", 5, true⟩)]⟩)) := by
  decide

/-- C1 (amended): when the alias a1 is active and bound to branch b, is a
nonempty name, differs from the requested alias a2, and is the only alias
active on b (the documented registry invariant), then requesting activation
of a2 for b is refused with an error naming a1, and the refusal happens
before any registry or filesystem mutation: the registry is returned
unchanged. -/
theorem activation_conflict_refused (c : Config) (a1 a2 b : String) (info : FolderInfo)
    (n : Nat) (hne : a1 ≠ a2) (ha1 : a1 ≠ "")
    (hmem : (a1, info) ∈ c.folders) (hact : info.isActive = true) (hbr : info.branch = b)
    (huniq : ∀ p ∈ c.folders, p.2.isActive = true → p.2.branch = b → p.1 = a1) :
    resolveActivation c a2 b n = (ActivationResult.conflict a1, c) := by
  have hexact : isExactMatch c a2 b = false := by
    unfold isExactMatch Config.find?
    cases hfind : c.folders.find? (fun p => p.1 == a2) with
    | none => rfl
    | some q =>
      have hq1 : (q.1 == a2) = true := by simpa using List.find?_some hfind
      have hqmem : q ∈ c.folders := List.mem_of_find?_eq_some hfind
      simp only [Option.map_some']
      cases hb : (q.2.isActive && (q.2.branch == b)) with
      | false => rfl
      | true =>
        exfalso
        rw [Bool.and_eq_true] at hb
        have hbranch : q.2.branch = b := by simpa using hb.2
        have h1 : q.1 = a1 := huniq q hqmem hb.1 hbranch
        have h2 : q.1 = a2 := by simpa using hq1
        exact hne (h1 ▸ h2)
  have hconf : checkBranchConflict c a2 b = a1 := by
    unfold checkBranchConflict
    have hsome : (c.folders.find?
        (fun p => p.2.isActive && p.2.branch == b && p.1 != a2)).isSome := by
      apply List.find?_isSome.mpr
      refine ⟨(a1, info), hmem, ?_⟩
      simp [hact, hbr, hne]
    cases hfind : c.folders.find?
        (fun p => p.2.isActive && p.2.branch == b && p.1 != a2) with
    | none => rw [hfind] at hsome; simp at hsome
    | some q =>
      have hpred : (q.2.isActive && q.2.branch == b && q.1 != a2) = true := by
        simpa using List.find?_some hfind
      have hqmem : q ∈ c.folders := List.mem_of_find?_eq_some hfind
      rw [Bool.and_eq_true, Bool.and_eq_true] at hpred
      have hbranch : q.2.branch = b := by simpa using hpred.1.2
      exact huniq q hqmem hpred.1.1 hbranch
  unfold resolveActivation
  rw [hexact, hconf]
  simp [ha1]

/-- C1 (witness): a registry where alias a1 alone is active on branch b
refuses activation of a2 naming a1 and returns the registry unchanged. -/
theorem activation_conflict_refused_witness :
    resolveActivation ⟨[("a1", ⟨"b", 0, true⟩)]⟩ "a2" "b" 3
      = (ActivationResult.conflict "a1", ⟨[("a1", ⟨"b", 0, true⟩)]⟩) :=
  activation_conflict_refused ⟨[("a1", ⟨"b", 0, true⟩)]⟩ "a1" "a2" "b" ⟨"b", 0, true⟩ 3
    (by decide) (by decide) (by decide) (by decide) (by decide) (by decide)

/-- C2: when the resolved alias is already active and bound to exactly the
requested branch, the activation gate is a no-op that returns the registry
unchanged; consequently, resolving the same pair a second time immediately
after a first resolution that activated it is a no-op. -/
theorem activation_exact_match_idempotent (c : Config) (a b : String) (n n2 : Nat) :
    (isExactMatch c a b = true → resolveActivation c a b n = (ActivationResult.noop, c))
  ∧ (∀ c2, resolveActivation c a b n = (ActivationResult.activated, c2) →
      resolveActivation c2 a b n2 = (ActivationResult.noop, c2)) := by
  constructor
  · intro h
    simp [resolveActivation, h]
  · intro c2 h
    have hc2 : c2 = touchFolder c a b n := by
      unfold resolveActivation at h
      split at h
      · simp at h
      · split at h
        · simp at h
        · exact (congrArg Prod.snd h).symm
    subst hc2
    have hx : isExactMatch (touchFolder c a b n) a b = true := by
      unfold isExactMatch
      rw [find?_touchFolder]
      simp
    simp [resolveActivation, hx]

/-- C2 (witness): activating the pair of alias feat and branch x from the
empty registry, then resolving the same pair again, yields a no-op. -/
theorem activation_exact_match_idempotent_witness :
    resolveActivation ⟨[("feat", ⟨"x", 0, true⟩)]⟩ "feat" "x" 5
      = (ActivationResult.noop, ⟨[("feat", ⟨"x", 0, true⟩)]⟩) :=
  (activation_exact_match_idempotent ⟨[]⟩ "feat" "x" 0 5).2
    ⟨[("feat", ⟨"x", 0, true⟩)]⟩ (by decide)

end WorktreePlus

namespace WorktreePlus

/-- C3: for a fresh target path, createWorktree classifies branch
provenance in strict priority order: a local branch is attached directly
regardless of the remote; otherwise a remote branch is tracked with a new
local branch; otherwise a brand-new branch is created. -/
theorem createWorktree_provenance_priority (repo : GitRepo) (gitOk : Bool)
    (dir : List String) (folderName branchName : String) :
    (branchExists repo branchName = true →
      (createWorktree repo false gitOk dir folderName branchName).gitCmd
        = some (WorktreeCmd.attachLocal (getWorktreePath dir folderName) branchName))
  ∧ (branchExists repo branchName = false → remoteBranchExists repo branchName = true →
      (createWorktree repo false gitOk dir folderName branchName).gitCmd
        = some (WorktreeCmd.trackRemote (getWorktreePath dir folderName) branchName))
  ∧ (branchExists repo branchName = false → remoteBranchExists repo branchName = false →
      (createWorktree repo false gitOk dir folderName branchName).gitCmd
        = some (WorktreeCmd.createNew (getWorktreePath dir folderName) branchName)) := by
  refine ⟨fun h1 => ?_, fun h1 h2 => ?_, fun h1 h2 => ?_⟩ <;>
    cases gitOk <;> simp [createWorktree, h1]
  · simp [*]
  · simp [*]
  · simp [*]
  · simp [*]

/-- C3 (witness): concrete repositories exercising all three provenance
branches, with the local branch winning over a same-named remote one. -/
theorem createWorktree_provenance_priority_witness :
    (createWorktree ⟨["main"], ["main"]⟩ false true ["r", "root", "A"] "feat" "main").gitCmd
      = some (WorktreeCmd.attachLocal ["r", "feat", "A"] "main")
  ∧ (createWorktree ⟨["main"], ["dev"]⟩ false true ["r", "root", "A"] "feat" "dev").gitCmd
      = some (WorktreeCmd.trackRemote ["r", "feat", "A"] "dev")
  ∧ (createWorktree ⟨["main"], []⟩ false true ["r", "root", "A"] "feat" "new").gitCmd
      = some (WorktreeCmd.createNew ["r", "feat", "A"] "new") :=
  ⟨(createWorktree_provenance_priority ⟨["main"], ["main"]⟩ true ["r", "root", "A"]
      "feat" "main").1 (by decide),
   (createWorktree_provenance_priority ⟨["main"], ["dev"]⟩ true ["r", "root", "A"]
      "feat" "dev").2.1 (by decide) (by decide),
   (createWorktree_provenance_priority ⟨["main"], []⟩ true ["r", "root", "A"]
      "feat" "new").2.2 (by decide) (by decide)⟩

/-- C4: deactivation never removes the FolderRecord of an alias present in
the registry: the record keeps its branch, refreshes its timestamp, clears
the active flag, and the alias key list is unchanged; reactivating the same
alias with a different branch overwrites the branch, marks the record
active, and still preserves the key list. -/
theorem deactivate_preserves_record (c : Config) (f : String) (info : FolderInfo)
    (n : Nat) (h : c.find? f = some info) :
    (deactivateFolder c f n).find? f = some ⟨info.branch, n, false⟩
  ∧ (deactivateFolder c f n).folders.map Prod.fst = c.folders.map Prod.fst
  ∧ ∀ b2 n2,
      (touchFolder (deactivateFolder c f n) f b2 n2).find? f = some ⟨b2, n2, true⟩
    ∧ (touchFolder (deactivateFolder c f n) f b2 n2).folders.map Prod.fst
        = c.folders.map Prod.fst := by
  refine ⟨find?_deactivateFolder c f info n h, keys_deactivateFolder c f n, ?_⟩
  intro b2 n2
  refine ⟨find?_touchFolder _ f b2 n2, ?_⟩
  rw [keys_touchFolder _ f b2 n2 ⟨info.branch, n, false⟩ (find?_deactivateFolder c f info n h)]
  exact keys_deactivateFolder c f n

/-- C4 (witness): deactivating the alias feat keeps its record with branch
x and inactive flag; reactivating feat with branch y overwrites the branch
in place. -/
theorem deactivate_preserves_record_witness :
    (deactivateFolder ⟨[("feat", ⟨"x", 7, true⟩)]⟩ "feat" 9).find? "feat"
      = some ⟨"x", 9, false⟩
  ∧ (touchFolder (deactivateFolder ⟨[("feat", ⟨"x", 7, true⟩)]⟩ "feat" 9) "feat" "y" 11).find?
      "feat" = some ⟨"y", 11, true⟩ :=
  ⟨(deactivate_preserves_record ⟨[("feat", ⟨"x", 7, true⟩)]⟩ "feat" ⟨"x", 7, true⟩ 9
      (by decide)).1,
   ((deactivate_preserves_record ⟨[("feat", ⟨"x", 7, true⟩)]⟩ "feat" ⟨"x", 7, true⟩ 9
      (by decide)).2.2 "y" 11).1⟩

/-- C5: the synchronized tree's path is computed by path arithmetic alone
from the repository directory and the folder alias, and equals the location
the spec states: the sibling of the invocation root's parent directory,
under the alias and the repository directory name. -/
theorem getWorktreePath_matches_spec (root : List String) (dirName folderName : String) :
    getWorktreePath (root ++ [dirName]) folderName
      = specWorktreePath root folderName dirName := by
  simp [getWorktreePath, specWorktreePath, pathDir, pathBase]

end WorktreePlus

namespace WorktreePlus

/-- C6: in the spec's mirror scenario (a repository ignoring build and
out/tmp.bin, both present on disk), the ignored items are enumerated
without trailing slashes, one mirror run links both paths into the tree and
appends the root-anchored patterns and the header comment to the tree's
gitignore file exactly once, and a second mirror run (or a direct second
append with the same items, or an append starting from an absent file)
changes nothing, leaving each pattern present exactly once. -/
theorem ignored_mirror_patterns_once :
    mirrorItems = ["build", "out/tmp.bin"]
  ∧ mirrorOnce.present.contains "build" = true
  ∧ mirrorOnce.present.contains "out/tmp.bin" = true
  ∧ countLines mirrorOnce.gitignore "/build" = 1
  ∧ countLines mirrorOnce.gitignore "/out/tmp.bin" = 1
  ∧ countLines mirrorOnce.gitignore headerComment = 1
  ∧ mirrorTwice = mirrorOnce
  ∧ countLines (addToGitExclude "" ["build", "out/tmp.bin"]) "/build" = 1
  ∧ countLines (addToGitExclude "" ["build", "out/tmp.bin"]) headerComment = 1
  ∧ addToGitExclude (addToGitExclude "" ["build", "out/tmp.bin"]) ["build", "out/tmp.bin"]
      = addToGitExclude "" ["build", "out/tmp.bin"] := by
  decide

/-- C7: removeWorktree against a nonexistent target returns success without
attempting any command; when the target exists it attempts a plain removal,
retries exactly once with the forced variant if the plain removal fails,
and reports an error only when the forced retry itself fails. -/
theorem removeWorktree_retry_policy (plainOk forceOk : Bool) :
    removeWorktree false plainOk forceOk = ([], false)
  ∧ removeWorktree true true forceOk = ([RemoveCmd.plain], false)
  ∧ removeWorktree true false true = ([RemoveCmd.plain, RemoveCmd.force], false)
  ∧ removeWorktree true false false = ([RemoveCmd.plain, RemoveCmd.force], true) := by
  cases plainOk <;> cases forceOk <;> decide

/-- C8: createWorktree is idempotent in the target path: a successful first
call leaves the tree in place, and a second call with identical arguments
finds the target existing and returns success without issuing any git
command, so exactly one working tree results and the second call reports no
error. -/
theorem createWorktree_idempotent (repo : GitRepo) (gitOk2 : Bool) (dir : List String)
    (folderName branchName : String) :
    (createWorktree repo false true dir folderName branchName).treeExists = true
  ∧ (createWorktree repo false true dir folderName branchName).ok = true
  ∧ createWorktree repo (createWorktree repo false true dir folderName branchName).treeExists
      gitOk2 dir folderName branchName = ⟨true, true, none⟩ := by
  refine ⟨rfl, rfl, rfl⟩

/-- C9: loadConfig returns the empty registry, not an error, when no
document exists; it normalizes a present document whose mapping field is
missing or empty to the empty mapping; and a parse failure of a
present-but-malformed document is returned to the caller as an explicit
error. -/
theorem loadConfig_contract :
    loadConfig ConfigDocument.missing = LoadResult.ok ⟨[]⟩
  ∧ loadConfig (ConfigDocument.parsed none) = LoadResult.ok ⟨[]⟩
  ∧ loadConfig (ConfigDocument.parsed (some [])) = LoadResult.ok ⟨[]⟩
  ∧ loadConfig ConfigDocument.malformed = LoadResult.parseError :=
  ⟨rfl, rfl, rfl, rfl⟩

/-- C10: deactivating an alias that has no FolderRecord in the registry
leaves the registry completely unchanged: no record is created and none is
modified. -/
theorem deactivate_unknown_noop (c : Config) (f : String) (n : Nat)
    (h : c.find? f = none) : deactivateFolder c f n = c := by
  unfold deactivateFolder
  rw [h]

/-- C10 (witness): deactivating an alias absent from a one-entry registry
returns the registry unchanged. -/
theorem deactivate_unknown_noop_witness :
    deactivateFolder ⟨[("feat", ⟨"x", 0, true⟩)]⟩ "ghost" 4
      = ⟨[("feat", ⟨"x", 0, true⟩)]⟩ :=
  deactivate_unknown_noop ⟨[("feat", ⟨"x", 0, true⟩)]⟩ "ghost" 4 (by decide)

end WorktreePlus
